import Mathlib

/-!
# Verification of the XStore transaction engine (src/src/os/XStore.cc)

A shallow embedding of the parts of `XStore.cc` that the specification's
claims are about, together with theorems settling each claim.

Conventions:
* machine integers become `Nat`/`Int`; errno values are negative `Int`s as
  in the source (`-ENOENT` etc.);
* stateful code becomes explicit state passing or executable step
  functions on a state type;
* components of the repository whose definitions are not part of the
  given source file (the `OpSequencer`/`Finisher` classes of the missing
  header and the external journal) are modelled from the spec; each such
  definition says so in its doc comment.
-/

namespace XStore

/-! ## Sequencer positions

Modelled from the spec: `SequencerPosition` is declared in a header that is
not part of the given source.  The spec ("Position: pair (sequence,
op-index-within-transaction)", §3) together with the constructor call
`SequencerPosition spos(op_seq, trans_num, 0)` and the increment
`spos.op++` in `_do_transaction` (XStore.cc:2591,3088) give a triple
(seq, trans, op) ordered lexicographically. -/
structure SPos where
  seq   : Nat
  trans : Nat
  op    : Nat
deriving DecidableEq, Repr

/-- Lexicographic strict order on sequencer positions. -/
def SPos.lt (a b : SPos) : Prop :=
  a.seq < b.seq ∨ (a.seq = b.seq ∧ (a.trans < b.trans ∨
    (a.trans = b.trans ∧ a.op < b.op)))

instance : LT SPos := ⟨SPos.lt⟩

instance (a b : SPos) : Decidable (a < b) :=
  inferInstanceAs (Decidable (a.seq < b.seq ∨ (a.seq = b.seq ∧
    (a.trans < b.trans ∨ (a.trans = b.trans ∧ a.op < b.op)))))

/-- `a ≤ b` as `a < b ∨ a = b`. -/
def SPos.le (a b : SPos) : Prop := a < b ∨ a = b

instance : LE SPos := ⟨SPos.le⟩

instance (a b : SPos) : Decidable (a ≤ b) :=
  inferInstanceAs (Decidable (a < b ∨ a = b))

theorem SPos.lt_def (a b : SPos) :
    a < b ↔ (a.seq < b.seq ∨ (a.seq = b.seq ∧
      (a.trans < b.trans ∨ (a.trans = b.trans ∧ a.op < b.op)))) := Iff.rfl

theorem SPos.lt_irrefl (a : SPos) : ¬ a < a := by
  rw [SPos.lt_def]; omega

theorem SPos.lt_trans {a b c : SPos} (hab : a < b) (hbc : b < c) : a < c := by
  rw [SPos.lt_def] at *; omega

theorem SPos.lt_asymm {a b : SPos} (hab : a < b) : ¬ b < a := fun hba =>
  SPos.lt_irrefl a (SPos.lt_trans hab hba)

theorem SPos.trichotomy (a b : SPos) : a < b ∨ a = b ∨ b < a := by
  rcases a with ⟨s1, t1, o1⟩; rcases b with ⟨s2, t2, o2⟩
  simp only [SPos.lt_def, SPos.mk.injEq]
  omega

theorem SPos.le_def (a b : SPos) : a ≤ b ↔ (a < b ∨ a = b) := Iff.rfl

theorem SPos.le_refl (a : SPos) : a ≤ a := Or.inr rfl

theorem SPos.le_trans {a b c : SPos} (hab : a ≤ b) (hbc : b ≤ c) : a ≤ c := by
  rcases hab with h1 | rfl
  · rcases hbc with h2 | rfl
    · exact Or.inl (SPos.lt_trans h1 h2)
    · exact Or.inl h1
  · exact hbc

theorem SPos.le_of_lt {a b : SPos} (h : a < b) : a ≤ b := Or.inl h

/-! ## C1: the replay-guard check

Embedding of `XStore::_check_replay_guard(int fd, const SequencerPosition&)`
(XStore.cc:2535-2575).  The guard xattr content is `none` when
`chain_fgetxattr` finds no xattr (line 2542), otherwise the decoded pair
`(opos, in_progress)` (lines 2550-2555; `in_progress` defaults to `false`
for older encodings). -/

/-- Stored replay-guard payload: position plus `in_progress` flag. -/
structure Guard where
  pos        : SPos
  inProgress : Bool
deriving DecidableEq, Repr

/-- `XStore::_check_replay_guard(int fd, const SequencerPosition& spos)`
(XStore.cc:2535-2575), with the xattr read made explicit: `g` is the
guard stored on the file (`none` = no xattr). -/
def checkReplayGuard (replaying canCheckpoint : Bool) (g : Option Guard)
    (spos : SPos) : Int :=
  if ¬replaying ∨ canCheckpoint then 1          -- line 2537-2538
  else
    match g with
    | none => 1                                 -- lines 2542-2545: no xattr
    | some ⟨opos, inProgress⟩ =>
      if opos > spos then -1                    -- lines 2556-2559
      else if opos = spos then                  -- lines 2560-2569
        if inProgress then 0 else -1
      else 1                                    -- lines 2570-2573

/-- The claim's description of the same check, written from the spec's
words: +1 when the stored guard is strictly older than the current
position or absent, 0 when equal with `in_progress` true, −1 when
strictly newer or equal without `in_progress`; +1 always when not
replaying or the backend can checkpoint. -/
def checkReplayGuardSpec (replaying canCheckpoint : Bool) (g : Option Guard)
    (spos : SPos) : Int :=
  if ¬replaying ∨ canCheckpoint then 1
  else
    match g with
    | none => 1
    | some ⟨opos, inProgress⟩ =>
      if opos < spos then 1
      else if opos = spos ∧ inProgress then 0
      else -1

/-- C1: the replay-guard check agrees, in every case, with the behaviour
the claim describes: while replaying with a non-checkpointable backend it
returns +1 exactly when the stored position is strictly older than the
current one or no guard xattr is present, 0 exactly when the stored
position equals the current one with `in_progress` set, and −1 when the
stored position is strictly newer or equal without `in_progress`; when
not replaying, or when the backend can checkpoint, it returns +1. -/
theorem check_replay_guard_matches_spec (replaying canCheckpoint : Bool)
    (g : Option Guard) (spos : SPos) :
    checkReplayGuard replaying canCheckpoint g spos =
      checkReplayGuardSpec replaying canCheckpoint g spos := by
  unfold checkReplayGuard checkReplayGuardSpec
  rcases g with _ | ⟨opos, inProgress⟩
  · rfl
  · dsimp only
    by_cases hmode : (¬replaying = true ∨ canCheckpoint = true)
    · rw [if_pos hmode, if_pos hmode]
    · rw [if_neg hmode, if_neg hmode]
      rcases SPos.trichotomy opos spos with hlt | heq | hgt
      · rw [if_neg (SPos.lt_asymm hlt), if_pos hlt,
          if_neg (fun h : opos = spos => SPos.lt_irrefl spos (h ▸ hlt))]
      · subst heq
        rw [if_neg (SPos.lt_irrefl opos), if_pos rfl,
          if_neg (SPos.lt_irrefl opos)]
        by_cases hip : inProgress = true
        · rw [if_pos hip, if_pos ⟨rfl, hip⟩]
        · rw [if_neg hip, if_neg (fun h => hip h.2)]
      · rw [if_pos hgt, if_neg (SPos.lt_asymm hgt),
          if_neg (fun h : opos = spos ∧ inProgress = true =>
            SPos.lt_irrefl spos (h.1 ▸ hgt))]

/-! ## C9: snapshot trimming at the end of a commit cycle

Embedding of the snap-removal loop of `XStore::sync_entry`
(XStore.cc:3934-3947): `while (snaps.size() > 2) { pop_front; destroy }`.
`snaps` is kept in increasing sequence order: `mount` builds it with
`assert(c > prev)` (XStore.cc:1309) and `sync_entry` appends the current
committing sequence (XStore.cc:3872). -/

/-- The `while (snaps.size() > 2) { snaps.pop_front(); destroy_checkpoint }`
loop of `sync_entry` (XStore.cc:3937-3946), returning the retained list. -/
def trimSnaps : List Nat → List Nat
  | [] => []
  | x :: t => if (x :: t).length > 2 then trimSnaps t else x :: t

theorem trimSnaps_eq_drop (l : List Nat) :
    trimSnaps l = l.drop (l.length - 2) := by
  induction l with
  | nil => rfl
  | cons x t ih =>
    by_cases h : (x :: t).length > 2
    · rw [trimSnaps, if_pos h, ih]
      have h2 : 2 ≤ t.length := by simpa using Nat.lt_of_succ_lt_succ h
      have : (x :: t).length - 2 = (t.length - 2) + 1 := by
        simp only [List.length_cons]; omega
      rw [this, List.drop_succ_cons]
    · rw [trimSnaps, if_neg h]
      have : (x :: t).length - 2 = 0 := by
        simp only [List.length_cons] at *; omega
      rw [this, List.drop_zero]

/-- C9: after the snap-removal loop of a commit cycle at most two
checkpoints are retained; the retained ones are exactly the last two of
the list, i.e. the loop destroys checkpoints from the front, and with the
list in increasing sequence order (as `mount` asserts and `sync_entry`
maintains) every destroyed checkpoint is older than every retained one. -/
theorem sync_entry_retains_at_most_two_snaps (l : List Nat)
    (hsorted : List.Sorted (· < ·) l) :
    (trimSnaps l).length ≤ 2 ∧
    trimSnaps l = l.drop (l.length - 2) ∧
    ∀ x ∈ l.take (l.length - 2), ∀ y ∈ trimSnaps l, x < y := by
  refine ⟨?_, trimSnaps_eq_drop l, ?_⟩
  · rw [trimSnaps_eq_drop, List.length_drop]
    omega
  · intro x hx y hy
    rw [trimSnaps_eq_drop] at hy
    have hl : l.take (l.length - 2) ++ l.drop (l.length - 2) = l :=
      List.take_append_drop _ l
    have hp : List.Pairwise (· < ·)
        (l.take (l.length - 2) ++ l.drop (l.length - 2)) := by
      rw [hl]; exact hsorted
    exact (List.pairwise_append.mp hp).2.2 x hx y hy

/-- Closed witness for C9 at a concrete snapshot list. -/
theorem sync_entry_retains_at_most_two_snaps_witness :
    (trimSnaps [3, 5, 8, 13]).length ≤ 2 ∧
    trimSnaps [3, 5, 8, 13] = [3, 5, 8, 13].drop ([3, 5, 8, 13].length - 2) ∧
    ∀ x ∈ [3, 5, 8, 13].take ([3, 5, 8, 13].length - 2),
      ∀ y ∈ trimSnaps [3, 5, 8, 13], x < y :=
  sync_entry_retains_at_most_two_snaps [3, 5, 8, 13] (by decide)

/-! ## Transaction opcodes

The opcode constants of `ObjectStore::Transaction` are declared in a
header that is not part of the given source; the dispatch in
`XStore::_do_transaction` (XStore.cc:2604-3006) names them all.  Their
numeric values play no role in the claims, so they are modelled as an
inductive type. -/
inductive Opcode where
  | nop | touch | write | zero | trimcache | truncate | remove
  | setattr | setattrs | rmattr | rmattrs
  | clone | clonerange | clonerange2
  | mkcoll | collHint | rmcoll | collAdd | collRemove | collMove
  | collMoveRename | collSetattr | collRmattr | collRename
  | omapClear | omapSetkeys | omapRmkeys | omapRmkeyrange | omapSetheader
  | splitCollection | splitCollection2 | setallochint | writeAhead
deriving DecidableEq, Repr

/-! ## C6: error classification in `_do_transaction`

Embedding of the error handling at the end of the opcode loop of
`XStore::_do_transaction` (XStore.cc:3008-3085): a negative per-op result
`r` is either classified as tolerable (`ok`), or the process aborts with
`assert(0 == "unexpected error")`. -/

def ENOENT    : Int := 2
def EEXIST    : Int := 17
def ENODATA   : Int := 61
def ENOSPC    : Int := 28
def ERANGE    : Int := 34
def ENOTEMPTY : Int := 39

/-- The `ok` classification of XStore.cc:3008-3050 for a failed op:
`true` means the error is tolerated and the loop continues, `false`
means the `assert(0 == "unexpected error")` at line 3084 aborts. -/
def toleratedError (op : Opcode) (r : Int) (replaying canCheckpoint : Bool) :
    Bool :=
  -- lines 3011-3017: -ENOENT is normally okay, except on clone/coll_add
  let ok := r = -ENOENT ∧ ¬(op = .clonerange ∨ op = .clone ∨
                            op = .clonerange2 ∨ op = .collAdd)
  -- lines 3018-3019: -ENODATA is okay
  let ok := ok ∨ r = -ENODATA
  -- lines 3021-3027: OP_SETALLOCHINT is advisory, ignore all errors
  let ok := ok ∨ op = .setallochint
  -- lines 3029-3050: extra tolerance during replay without checkpoints
  let ok := ok ∨ (replaying = true ∧ canCheckpoint = false ∧
    ((r = -EEXIST ∧ op = .mkcoll) ∨
     (r = -EEXIST ∧ op = .collAdd) ∨
     (r = -EEXIST ∧ op = .collMove) ∨
     r = -ERANGE ∨
     r = -ENOENT))
  decide ok

/-- Whether `_do_transaction` aborts the process for a per-op result `r`
(XStore.cc:3008,3052,3084): abort exactly when `r < 0` and the error is
not classified as tolerable. -/
def doTransactionAborts (op : Opcode) (r : Int)
    (replaying canCheckpoint : Bool) : Bool :=
  decide (r < 0) && ! toleratedError op r replaying canCheckpoint

/-- C6 counterexample: `OP_SETALLOCHINT` ignores every error, including
ENOSPC (XStore.cc:3021-3027), so a set-alloc-hint op returning ENOSPC
does not abort the applier — the claim's universal statement is false. -/
theorem enospc_setallochint_tolerated :
    doTransactionAborts .setallochint (-ENOSPC) false false = false ∧
    toleratedError .setallochint (-ENOSPC) false false = true := by
  constructor <;> rfl

/-- C6 (amended): for every opcode other than the advisory
`OP_SETALLOCHINT`, a per-op result of -ENOSPC aborts the process, both
during normal apply and during replay, with or without a
checkpoint-capable backend. -/
theorem enospc_aborts (op : Opcode) (replaying canCheckpoint : Bool)
    (h : op ≠ .setallochint) :
    doTransactionAborts op (-ENOSPC) replaying canCheckpoint = true := by
  cases op <;> first
    | exact absurd rfl h
    | (cases replaying <;> cases canCheckpoint <;> rfl)

/-- Closed witness for C6 at a concrete opcode: a write returning
ENOSPC during replay aborts. -/
theorem enospc_aborts_witness :
    doTransactionAborts .write (-ENOSPC) true false = true :=
  enospc_aborts .write true false (by decide)

/-! ## C7: checkpoint handling on mount

Embedding of the checkpoint phase of `XStore::mount`
(XStore.cc:1317-1387): the enumeration has already produced `snaps`
(increasing, `assert(c > prev)` at line 1309) and the set of cluster
snapshots; this function decides what the phase does. -/

/-- Outcome of the mount checkpoint phase. -/
inductive MountCkptAction where
  /-- line 1317-1322: requested cluster snapshot not found, mount
  returns -ENOENT. -/
  | refuseNoClusterSnap
  /-- line 1328-1329: checkpoint backend but no snaps: warn, no
  rollback. -/
  | warnNoSnaps
  /-- lines 1334-1340, 1380: roll back to the named cluster snapshot. -/
  | rollbackCluster (name : String)
  /-- lines 1360-1366: `current/nosnap` exists and the stale-snap
  override is unset: mount returns -ENOTSUP. -/
  | refuseStaleSnap
  /-- lines 1353, 1375-1380: roll back to `snap_<seq>`. -/
  | rollbackSnap (seq : Nat)
  /-- backend cannot checkpoint: the whole block is skipped. -/
  | noRollback
deriving DecidableEq, Repr

/-- The decision logic of XStore.cc:1317-1387. -/
def mountCkptDecision (canCheckpoint : Bool) (snaps : List Nat)
    (clusterReq : Option String) (clusterSnaps : List String)
    (nosnapExists useStaleSnap : Bool) : MountCkptAction :=
  -- lines 1317-1322 (`m_osd_rollback_to_cluster_snap.length()` nonzero
  -- means a cluster rollback was requested)
  match clusterReq with
  | some s =>
    if s ∉ clusterSnaps then .refuseNoClusterSnap
    else if canCheckpoint then
      if snaps.isEmpty then .warnNoSnaps
      else .rollbackCluster s                    -- lines 1334-1340, 1380
    else .noRollback
  | none =>
    if canCheckpoint then                        -- line 1327
      if snaps.isEmpty then .warnNoSnaps         -- lines 1328-1329
      else if nosnapExists ∧ useStaleSnap = false then
        .refuseStaleSnap                         -- lines 1360-1366
      else .rollbackSnap (snaps.getLastD 0)      -- lines 1353,1375-1380
    else .noRollback

theorem sorted_le_getLastD {l : List Nat} (hs : List.Sorted (· < ·) l)
    {x : Nat} (hx : x ∈ l) : x ≤ l.getLastD 0 := by
  induction l with
  | nil => cases hx
  | cons a t ih =>
    rcases List.mem_cons.mp hx with rfl | hxt
    · cases t with
      | nil => simp
      | cons b u =>
        have hmem : (b :: u).getLast (by simp) ∈ b :: u :=
          List.getLast_mem _
        have : x < (b :: u).getLast (by simp) ∨
            x = (b :: u).getLast (by simp) := by
          rcases List.mem_cons.mp hmem with h | h
          · rcases (List.sorted_cons.mp hs).1 _ hmem with h'
            exact Or.inl h'
          · rcases (List.sorted_cons.mp hs).1 _ hmem with h'
            exact Or.inl h'
        have hle : x ≤ (b :: u).getLast (by simp) := by
          rcases this with h | h
          · exact Nat.le_of_lt h
          · exact Nat.le_of_eq h
        simpa [List.getLastD_eq_getLast?, List.getLast?_eq_getLast]
          using hle
    · have hs' := (List.sorted_cons.mp hs).2
      have := ih hs' hxt
      cases t with
      | nil => cases hxt
      | cons b u =>
        simpa using this

/-- C7 counterexample: with a checkpoint-capable backend, a snapshot
present, `current/nosnap` present and the stale-snap override unset, a
requested cluster-snapshot rollback still rolls back (to the cluster
snapshot) instead of refusing with ENOTSUP — the claim as stated is
false. -/
theorem mount_nosnap_overridden_by_cluster_rollback :
    mountCkptDecision true [5] (some "a") ["a"] true false =
      .rollbackCluster "a" ∧
    mountCkptDecision true [5] (some "a") ["a"] true false ≠
      .refuseStaleSnap := by
  constructor <;> decide

/-- C7 (amended): on mount with a checkpoint-capable backend, at least
one `snap_<seq>` checkpoint present and no cluster-snapshot rollback
requested: without `current/nosnap` the store rolls back to the
checkpoint with the highest sequence number; with `current/nosnap`
present it refuses with ENOTSUP unless the stale-snap override is set,
in which case it rolls back to the highest checkpoint anyway. -/
theorem mount_rollback_decision (snaps : List Nat)
    (clusterSnaps : List String) (nosnapExists useStaleSnap : Bool)
    (hne : snaps ≠ []) (hsorted : List.Sorted (· < ·) snaps) :
    (nosnapExists = false →
      mountCkptDecision true snaps none clusterSnaps nosnapExists
        useStaleSnap = .rollbackSnap (snaps.getLastD 0)) ∧
    (nosnapExists = true → useStaleSnap = false →
      mountCkptDecision true snaps none clusterSnaps nosnapExists
        useStaleSnap = .refuseStaleSnap) ∧
    (nosnapExists = true → useStaleSnap = true →
      mountCkptDecision true snaps none clusterSnaps nosnapExists
        useStaleSnap = .rollbackSnap (snaps.getLastD 0)) ∧
    (∀ x ∈ snaps, x ≤ snaps.getLastD 0) := by
  have hempty : snaps.isEmpty = false := by
    cases snaps with
    | nil => exact absurd rfl hne
    | cons a t => rfl
  refine ⟨?_, ?_, ?_, fun x hx => sorted_le_getLastD hsorted hx⟩
  · rintro rfl
    simp [mountCkptDecision, hempty]
  · rintro rfl rfl
    simp [mountCkptDecision, hempty]
  · rintro rfl rfl
    simp [mountCkptDecision, hempty]

/-- Closed witness for C7 at a concrete mount state. -/
theorem mount_rollback_decision_witness :
    mountCkptDecision true [3, 7] none [] false false =
      .rollbackSnap ([3, 7].getLastD 0) :=
  (mount_rollback_decision [3, 7] [] false false (by decide)
    (by decide)).1 rfl

/-! ## C10: the `not_wal_ops` table scan in `_should_wal`

Embedding of the opcode scan of `XStore::_should_wal`
(XStore.cc:2139-2157).  Because C++ `||` evaluates left to right, the
read `not_wal_ops[j]` in line 2151 happens before the bounds test
`i >= sizeof(not_wal_ops)/sizeof(uint32_t)` in line 2152; the embedding
therefore records the index of every table read that the scan performs.
A read at index ≥ 3 is past the end of the three-element array; the
value it yields is arbitrary stack memory, modelled by the `garbage`
parameter. -/

/-- `uint32_t not_wal_ops[] = {OP_WRITE, OP_SETATTRS, OP_OMAP_SETKEYS}`
(XStore.cc:2140-2141). -/
def notWalOps : List Opcode := [.write, .setattrs, .omapSetkeys]

/-- `not_wal_ops[j]`, yielding `garbage` past the end of the array. -/
def notWalAt (garbage : Opcode) (j : Nat) : Opcode := notWalOps.getD j garbage

/-- The scan loop of XStore.cc:2145-2157, returning the computed `wal`
flag together with the list of indices at which `not_wal_ops` was read. -/
def shouldWalScan (garbage : Opcode) : List Opcode → Nat → Nat →
    Bool × List Nat
  | [], _, _ => (false, [])
  | op :: rest, i, j =>
    if i = 2 ∧ op = .omapRmkeys then
      shouldWalScan garbage rest (i + 1) j       -- line 2148-2149
    else if op = .writeAhead then (true, [])     -- line 2150, short-circuit
    else
      -- line 2151 reads not_wal_ops[j] before line 2152 tests i:
      if op ≠ notWalAt garbage j ∨ i ≥ 3 then (true, [j])
      else
        let r := shouldWalScan garbage rest (i + 1) (j + 1)
        (r.1, j :: r.2)

/-- The indices at which a `_should_wal` scan of `ops` reads the
`not_wal_ops` table. -/
def walTableAccesses (garbage : Opcode) (ops : List Opcode) : List Nat :=
  (shouldWalScan garbage ops 0 0).2

/-- C10: on the opcode sequence `[OP_WRITE, OP_SETATTRS, OP_OMAP_SETKEYS,
OP_WRITE]` the scan reads `not_wal_ops` at indices 0, 1, 2 and 3 — the
fourth read is one element past the end of the three-element array,
because the bounds disjunct `i >= 3` is evaluated only after the table
read.  This holds whatever value the out-of-bounds read yields. -/
theorem should_wal_reads_table_out_of_bounds (garbage : Opcode) :
    walTableAccesses garbage [.write, .setattrs, .omapSetkeys, .write] =
      [0, 1, 2, 3] := by
  cases garbage <;> rfl

/-! ## C3: the admission throttle

Embedding of `XStore::op_queue_reserve_throttle` (XStore.cc:1698-1735)
and `op_queue_release_throttle` (XStore.cc:1737-1748).  The in-flight
set is modelled as the list of byte counts of the admitted ops;
`op_queue_len` is its length and `op_queue_bytes` its sum. -/

/-- The configured ceilings (`m_filestore_queue_max_ops` etc.). -/
structure ThrottleCfg where
  maxOps   : Nat
  maxBytes : Nat
  comOps   : Nat
  comBytes : Nat
deriving Repr

/-- Effective ops ceiling (XStore.cc:1701-1707): the base plus the
committing delta exactly when the backend can checkpoint and a commit is
in progress. -/
def effMaxOps (cfg : ThrottleCfg) (canCheckpoint isCommitting : Bool) : Nat :=
  cfg.maxOps + (if canCheckpoint ∧ isCommitting then cfg.comOps else 0)

/-- Effective bytes ceiling (XStore.cc:1702-1707). -/
def effMaxBytes (cfg : ThrottleCfg) (canCheckpoint isCommitting : Bool) : Nat :=
  cfg.maxBytes + (if canCheckpoint ∧ isCommitting then cfg.comBytes else 0)

/-- The wait condition of XStore.cc:1715-1717: an op of `b` bytes stays
blocked while `(max_ops && op_queue_len + 1 > max_ops) || (max_bytes &&
op_queue_bytes && op_queue_bytes + b > max_bytes)`.  The middle
`op_queue_bytes` truthiness test is the source's "let single large ops
through!". -/
def throttleBlocked (maxOps maxBytes len bytes b : Nat) : Bool :=
  (maxOps ≠ 0 && len + 1 > maxOps) ||
  (maxBytes ≠ 0 && bytes ≠ 0 && bytes + b > maxBytes)

/-- States of the throttle reachable from empty under reserve
(XStore.cc:1727-1728, entered only once the wait condition is false) and
release (XStore.cc:1741-1742, removing an arbitrary in-flight op). -/
inductive ThrottleReach (cfg : ThrottleCfg) (canCheckpoint isCommitting : Bool) :
    List Nat → Prop where
  | init : ThrottleReach cfg canCheckpoint isCommitting []
  | reserve {s : List Nat} {b : Nat}
      (hs : ThrottleReach cfg canCheckpoint isCommitting s)
      (hadm : throttleBlocked (effMaxOps cfg canCheckpoint isCommitting)
        (effMaxBytes cfg canCheckpoint isCommitting) s.length s.sum b = false) :
      ThrottleReach cfg canCheckpoint isCommitting (b :: s)
  | release {s₁ s₂ : List Nat} {b : Nat}
      (hs : ThrottleReach cfg canCheckpoint isCommitting (s₁ ++ b :: s₂)) :
      ThrottleReach cfg canCheckpoint isCommitting (s₁ ++ s₂)

/-- A concrete configuration for the counterexample: ceilings 10 ops and
10 bytes, no committing delta. -/
def throttleCfgEx : ThrottleCfg := ⟨10, 10, 0, 0⟩

/-- C3 counterexample: with `max_bytes = 10`, an 11-byte op submitted
while no bytes are in flight is admitted (the `op_queue_bytes` truthiness
test of XStore.cc:1716 short-circuits the bytes bound), so the in-flight
bytes reach 11 > 10 — the claim's bytes bound is false as stated. -/
theorem throttle_single_large_op_exceeds_bytes_ceiling :
    ThrottleReach throttleCfgEx false false [11] ∧
    List.sum [11] > effMaxBytes throttleCfgEx false false ∧
    effMaxBytes throttleCfgEx false false ≠ 0 := by
  refine ⟨ThrottleReach.reserve ThrottleReach.init (by decide), by decide, by decide⟩

/-- C3 (amended): with nonzero effective ceilings held fixed, in every
reachable throttle state the number of in-flight ops is at most the ops
ceiling, and the in-flight bytes exceed the bytes ceiling only when one
single op accounts for every in-flight byte (the deliberate
"let single large ops through" exception of XStore.cc:1716); the
ceilings are the configured maxima raised by the committing deltas
exactly when the backend can checkpoint and a commit is in progress. -/
theorem throttle_ceilings (cfg : ThrottleCfg)
    (canCheckpoint isCommitting : Bool) (s : List Nat)
    (h : ThrottleReach cfg canCheckpoint isCommitting s) :
    (effMaxOps cfg canCheckpoint isCommitting ≠ 0 →
      s.length ≤ effMaxOps cfg canCheckpoint isCommitting) ∧
    (effMaxBytes cfg canCheckpoint isCommitting ≠ 0 →
      s.sum ≤ effMaxBytes cfg canCheckpoint isCommitting ∨
        ∃ b ∈ s, s.sum = b) ∧
    effMaxOps cfg canCheckpoint isCommitting =
      cfg.maxOps + (if canCheckpoint = true ∧ isCommitting = true
        then cfg.comOps else 0) ∧
    effMaxBytes cfg canCheckpoint isCommitting =
      cfg.maxBytes + (if canCheckpoint = true ∧ isCommitting = true
        then cfg.comBytes else 0) := by
  set mo := effMaxOps cfg canCheckpoint isCommitting with hmo
  set mb := effMaxBytes cfg canCheckpoint isCommitting with hmb
  refine ⟨?_, ?_, rfl, rfl⟩
  · intro hmo0
    induction h with
    | init => simp
    | @reserve s b hs hadm ih =>
      simp only [throttleBlocked, Bool.or_eq_false_iff,
        Bool.and_eq_false_iff] at hadm
      rcases hadm.1 with h1 | h1
      · exact absurd (by simpa using h1) hmo0
      · have : s.length + 1 ≤ mo := by
          have := of_decide_eq_false h1
          omega
        simpa using this
    | @release s₁ s₂ b hs ih =>
      have := ih
      simp only [List.length_append, List.length_cons] at *
      omega
  · intro hmb0
    induction h with
    | init => simp
    | @reserve s b hs hadm ih =>
      simp only [throttleBlocked, Bool.or_eq_false_iff,
        Bool.and_eq_false_iff] at hadm
      rcases hadm.2 with h2 | h2
      · rcases h2 with h2 | h2
        · exact absurd (by simpa using h2) hmb0
        · -- op_queue_bytes was 0: the new op carries all in-flight bytes
          have hz : s.sum = 0 := by
            have := of_decide_eq_false h2
            omega
          right
          exact ⟨b, List.mem_cons_self b s, by simp [hz]⟩
      · left
        have := of_decide_eq_false h2
        simp only [List.sum_cons]
        omega
    | @release s₁ s₂ b hs ih =>
      rcases ih with hle | ⟨b₀, hb₀mem, hb₀sum⟩
      · left
        have : (s₁ ++ s₂).sum ≤ (s₁ ++ b :: s₂).sum := by
          simp [List.sum_append]
        omega
      · by_cases hsum : (s₁ ++ s₂).sum ≤ mb
        · exact Or.inl hsum
        · right
          have hsum_eq : (s₁ ++ b :: s₂).sum = b + (s₁ ++ s₂).sum := by
            simp [List.sum_append]; omega
          rcases (List.mem_append.mp hb₀mem) with hmem | hmem
          · -- b₀ sits in s₁, hence survives the release
            refine ⟨b₀, List.mem_append.mpr (Or.inl hmem), ?_⟩
            have hb₀le : b₀ ≤ s₁.sum := List.single_le_sum (by simp) _ hmem
            have : s₁.sum ≤ (s₁ ++ s₂).sum := by simp [List.sum_append]
            omega
          · rcases List.mem_cons.mp hmem with rfl | hmem
            · -- the released op carried all bytes: remaining sum is 0,
              -- contradicting that it still exceeds the ceiling
              exfalso
              omega
            · refine ⟨b₀, List.mem_append.mpr (Or.inr hmem), ?_⟩
              have hb₀le : b₀ ≤ s₂.sum := List.single_le_sum (by simp) _ hmem
              have : s₂.sum ≤ (s₁ ++ s₂).sum := by simp [List.sum_append]
              omega

/-- Closed witness for C3 at a concrete reachable state: two ops of
3 and 4 bytes in flight under ceilings of 10. -/
theorem throttle_ceilings_witness :
    (effMaxOps throttleCfgEx false false ≠ 0 →
      List.length [4, 3] ≤ effMaxOps throttleCfgEx false false) ∧
    (effMaxBytes throttleCfgEx false false ≠ 0 →
      List.sum [4, 3] ≤ effMaxBytes throttleCfgEx false false ∨
        ∃ b ∈ [4, 3], List.sum [4, 3] = b) ∧
    effMaxOps throttleCfgEx false false =
      throttleCfgEx.maxOps + (if false = true ∧ false = true
        then throttleCfgEx.comOps else 0) ∧
    effMaxBytes throttleCfgEx false false =
      throttleCfgEx.maxBytes + (if false = true ∧ false = true
        then throttleCfgEx.comBytes else 0) :=
  throttle_ceilings throttleCfgEx false false [4, 3]
    (ThrottleReach.reserve
      (ThrottleReach.reserve ThrottleReach.init (by decide)) (by decide))

/-! ## C8: attribute storage — `_setattrs` and `getattrs`

Embedding of `XStore::_setattrs` (XStore.cc:4385-4485) and
`XStore::getattrs` (XStore.cc:4307-4383).  An object's attribute state
is the file's inline xattrs, the kv-store (omap) xattrs, and the
spill-out sentinel (`user.cephos.spill_out`): `spill = true` models the
sentinel being absent or different from `"0"` (`spill_out = 1` in the
source), `spill = false` models it equal to `"0"`. -/

/-- Attribute values; only their length matters to the inline policy. -/
abbrev AttrVal := List Nat

/-- Remove every binding of key `k`. -/
def eraseKey (k : String) (l : List (String × AttrVal)) :
    List (String × AttrVal) :=
  l.filter (fun p => p.1 ≠ k)

/-- Overwrite the binding of `k` (map-style assignment). -/
def setKey (k : String) (v : AttrVal) (l : List (String × AttrVal)) :
    List (String × AttrVal) :=
  eraseKey k l ++ [(k, v)]

/-- Map-style lookup. -/
def lookupKey (k : String) (l : List (String × AttrVal)) : Option AttrVal :=
  (l.find? (fun p => p.1 = k)).map (·.2)

/-- Inline-attribute policy knobs (`m_filestore_max_inline_xattr_size`,
`m_filestore_max_inline_xattrs`). -/
structure XattrCfg where
  maxInlineXattrSize : Nat
  maxInlineXattrs    : Nat
deriving Repr

/-- An object's attribute state. -/
structure AttrState where
  inline : List (String × AttrVal)
  omap   : List (String × AttrVal)
  spill  : Bool
deriving Repr

/-- The per-attribute loop of `_setattrs` (XStore.cc:4414-4454),
accumulating the updated inline set, the kv-store updates (`omap_set`)
and removals (`omap_remove`). -/
def setattrsLoop (cfg : XattrCfg) (incompleteInline spill : Bool) :
    List (String × AttrVal) → List (String × AttrVal) →
    List (String × AttrVal) → List String →
    List (String × AttrVal) × List (String × AttrVal) × List String
  | [], inl, oset, orem => (inl, oset, orem)
  | (k, v) :: rest, inl, oset, orem =>
    if incompleteInline then
      -- lines 4420-4424: force omap, drop any inline copy
      setattrsLoop cfg incompleteInline spill rest
        (eraseKey k inl) (setKey k v oset) orem
    else if v.length > cfg.maxInlineXattrSize then
      -- lines 4426-4435: oversized value goes to omap, inline copy removed
      setattrsLoop cfg incompleteInline spill rest
        (eraseKey k inl) (setKey k v oset) orem
    else if lookupKey k inl = none ∧ inl.length ≥ cfg.maxInlineXattrs then
      -- lines 4437-4441: inline-count ceiling reached, spill to omap
      setattrsLoop cfg incompleteInline spill rest
        inl (setKey k v oset) orem
    else
      -- lines 4442-4453: store inline, schedule removal of a stale omap copy
      setattrsLoop cfg incompleteInline spill rest
        (setKey k v inl) oset (if spill then orem ++ [k] else orem)

/-- `XStore::_setattrs` (XStore.cc:4385-4485) on the success path of an
existing object: the loop, then the sentinel update (lines 4456-4459),
the omap removals (lines 4461-4470) and the omap writes (lines
4472-4479). -/
def setattrs (cfg : XattrCfg) (incompleteInline : Bool) (st : AttrState)
    (aset : List (String × AttrVal)) : AttrState :=
  let r := setattrsLoop cfg incompleteInline st.spill aset st.inline [] []
  let inl := r.1
  let oset := r.2.1
  let orem := r.2.2
  -- lines 4456-4459: `if (spill_out != 1 && !omap_set.empty())` set sentinel
  let spill' := if st.spill = false ∧ oset ≠ [] then true else st.spill
  -- lines 4461-4470: `if (spill_out && !omap_remove.empty())` remove
  let omap₁ := if st.spill ∧ orem ≠ [] then
      orem.foldl (fun m k => eraseKey k m) st.omap
    else st.omap
  -- lines 4472-4479: `if (!omap_set.empty())` set
  let omap₂ := if oset ≠ [] then
      oset.foldl (fun m p => setKey p.1 p.2 m) omap₁
    else omap₁
  { inline := inl, omap := omap₂, spill := spill' }

/-- `XStore::getattrs` (XStore.cc:4307-4383) on the success path: the
inline xattrs are read into the result (lines 4328-4336); when the
sentinel does not say "no spill-out" the omap xattrs are added with
`std::map::insert`, which does not overwrite an inline binding (lines
4339-4371). -/
def getattrs (st : AttrState) : List (String × AttrVal) :=
  if st.spill = false then st.inline
  else st.inline ++ st.omap.filter (fun p => (lookupKey p.1 st.inline).isNone)

theorem lookupKey_cons_self (k : String) (p : String × AttrVal)
    (t : List (String × AttrVal)) (h : p.1 = k) :
    lookupKey k (p :: t) = some p.2 := by
  unfold lookupKey
  rw [List.find?_cons_of_pos _ (by simpa using h)]
  rfl

theorem lookupKey_cons_ne (k : String) (p : String × AttrVal)
    (t : List (String × AttrVal)) (h : ¬ p.1 = k) :
    lookupKey k (p :: t) = lookupKey k t := by
  unfold lookupKey
  rw [List.find?_cons_of_neg _ (by simpa using h)]

theorem lookupKey_append (k : String) (l₁ l₂ : List (String × AttrVal)) :
    lookupKey k (l₁ ++ l₂) = (lookupKey k l₁).or (lookupKey k l₂) := by
  unfold lookupKey
  rw [List.find?_append]
  cases List.find? (fun p => decide (p.1 = k)) l₁ with
  | none => rfl
  | some q => rfl

theorem lookupKey_eraseKey_self (k : String) (l : List (String × AttrVal)) :
    lookupKey k (eraseKey k l) = none := by
  induction l with
  | nil => rfl
  | cons p t ih =>
    rw [eraseKey, List.filter_cons]
    by_cases h : p.1 = k
    · rw [if_neg (by simpa using h)]
      exact ih
    · rw [if_pos (by simpa using h)]
      rw [lookupKey_cons_ne k p _ h]
      exact ih

theorem lookupKey_setKey_self (k : String) (v : AttrVal)
    (l : List (String × AttrVal)) :
    lookupKey k (setKey k v l) = some v := by
  rw [setKey, lookupKey_append, lookupKey_eraseKey_self,
    lookupKey_cons_self k (k, v) [] rfl]
  rfl

theorem lookupKey_filter_pred (k : String) (l : List (String × AttrVal))
    (P : String → Bool) :
    lookupKey k (l.filter (fun p => P p.1)) =
      if P k then lookupKey k l else none := by
  induction l with
  | nil => simp [lookupKey]
  | cons p t ih =>
    rw [List.filter_cons]
    by_cases hp : P p.1
    · rw [if_pos (by simpa using hp)]
      by_cases hk : p.1 = k
      · subst hk
        rw [lookupKey_cons_self p.1 p _ rfl, if_pos hp,
          lookupKey_cons_self p.1 p _ rfl]
      · rw [lookupKey_cons_ne k p _ hk, ih, lookupKey_cons_ne k p _ hk]
    · rw [if_neg (by simpa using hp)]
      rw [ih]
      by_cases hk : p.1 = k
      · subst hk
        rw [if_neg hp, if_neg hp]
      · by_cases hPk : P k
        · rw [if_pos hPk, if_pos hPk, lookupKey_cons_ne k p _ hk]
        · rw [if_neg hPk, if_neg hPk]

theorem setKey_nil (k : String) (v : AttrVal) : setKey k v [] = [(k, v)] := rfl

/-- Evaluation of the `_setattrs` loop on a single binding that goes to
the kv store via the forced-spill or oversized-value branches
(XStore.cc:4420-4435). -/
theorem setattrsLoop_omap_case (cfg : XattrCfg) (inc sp : Bool)
    (k : String) (v : AttrVal) (inl : List (String × AttrVal))
    (h : inc = true ∨ v.length > cfg.maxInlineXattrSize) :
    setattrsLoop cfg inc sp [(k, v)] inl [] [] =
      (eraseKey k inl, [(k, v)], []) := by
  rcases h with h | h
  · simp [setattrsLoop, h, setKey_nil]
  · by_cases hinc : inc = true
    · simp [setattrsLoop, hinc, setKey_nil]
    · simp [setattrsLoop, hinc, h, setKey_nil]

/-- Evaluation of the `_setattrs` loop on a single small binding hitting
the inline-count ceiling (XStore.cc:4437-4441). -/
theorem setattrsLoop_count_case (cfg : XattrCfg) (sp : Bool)
    (k : String) (v : AttrVal) (inl : List (String × AttrVal))
    (hinc : ¬ v.length > cfg.maxInlineXattrSize)
    (hfull : lookupKey k inl = none ∧ inl.length ≥ cfg.maxInlineXattrs) :
    setattrsLoop cfg false sp [(k, v)] inl [] [] =
      (inl, [(k, v)], []) := by
  simp [setattrsLoop, hinc, hfull, setKey_nil]

/-- Evaluation of the `_setattrs` loop on a single binding stored inline
(XStore.cc:4442-4453). -/
theorem setattrsLoop_inline_case (cfg : XattrCfg) (sp : Bool)
    (k : String) (v : AttrVal) (inl : List (String × AttrVal))
    (hinc : ¬ v.length > cfg.maxInlineXattrSize)
    (hfull : ¬ (lookupKey k inl = none ∧ inl.length ≥ cfg.maxInlineXattrs)) :
    setattrsLoop cfg false sp [(k, v)] inl [] [] =
      (setKey k v inl, [], if sp then [k] else []) := by
  by_cases hsp : sp = true <;>
    simp [setattrsLoop, hinc, hfull, hsp]

/-- Lookup in the merged view `getattrs` produces when the binding went
to the kv store and no inline binding shadows it. -/
theorem getattrs_lookup_omap (inl omap : List (String × AttrVal))
    (k : String) (v : AttrVal) (hnone : lookupKey k inl = none) :
    lookupKey k (getattrs ⟨inl, setKey k v omap, true⟩) = some v := by
  unfold getattrs
  simp only [if_neg (by simp : ¬ (true = false))]
  rw [lookupKey_append, hnone]
  have hfilter := lookupKey_filter_pred k (setKey k v omap)
    (fun s => (lookupKey s inl).isNone)
  rw [hfilter, if_pos (by rw [hnone]; rfl), lookupKey_setKey_self]
  rfl

/-- Lookup in the view `getattrs` produces when the binding is inline. -/
theorem getattrs_lookup_inline (inl omap : List (String × AttrVal))
    (sp : Bool) (k : String) (v : AttrVal) :
    lookupKey k (getattrs ⟨setKey k v inl, omap, sp⟩) = some v := by
  unfold getattrs
  by_cases hsp : sp = false
  · rw [if_pos hsp]
    exact lookupKey_setKey_self k v inl
  · rw [if_neg hsp]
    rw [lookupKey_append, lookupKey_setKey_self]
    rfl

/-- C8: after a successful `setattrs` of the single binding `k ↦ v` on
an existing object, `getattrs` returns a map containing `k ↦ v`; this
holds for every prior attribute state, whether `v` is within the inline
limit (stored as a file xattr) or exceeds it (stored in the kv store
with the spill-out sentinel set), and also on the `-E2BIG`
forced-spill path. -/
theorem setattrs_getattrs_roundtrip (cfg : XattrCfg)
    (incompleteInline : Bool) (st : AttrState) (k : String) (v : AttrVal) :
    lookupKey k (getattrs (setattrs cfg incompleteInline st [(k, v)])) =
      some v := by
  by_cases homap : incompleteInline = true ∨ v.length > cfg.maxInlineXattrSize
  · -- the binding goes to the kv store; the sentinel records spill-out
    have hstate : setattrs cfg incompleteInline st [(k, v)] =
        { inline := eraseKey k st.inline,
          omap := setKey k v st.omap,
          spill := true } := by
      unfold setattrs
      rw [setattrsLoop_omap_case cfg incompleteInline st.spill k v st.inline homap]
      cases hsp : st.spill <;> simp
    rw [hstate]
    exact getattrs_lookup_omap _ _ k v (lookupKey_eraseKey_self k st.inline)
  · push_neg at homap
    obtain ⟨hinc, hsize⟩ := homap
    have hinc' : incompleteInline = false := by
      cases incompleteInline
      · rfl
      · exact absurd rfl hinc
    subst hinc'
    by_cases hfull : lookupKey k st.inline = none ∧
        st.inline.length ≥ cfg.maxInlineXattrs
    · -- inline table full: the binding goes to the kv store
      have hstate : setattrs cfg false st [(k, v)] =
          { inline := st.inline,
            omap := setKey k v st.omap,
            spill := true } := by
        unfold setattrs
        rw [setattrsLoop_count_case cfg st.spill k v st.inline
          (by omega) hfull]
        cases hsp : st.spill <;> simp
      rw [hstate]
      exact getattrs_lookup_omap _ _ k v hfull.1
    · -- the binding is stored inline
      have hstate : setattrs cfg false st [(k, v)] =
          { inline := setKey k v st.inline,
            omap := if st.spill then eraseKey k st.omap else st.omap,
            spill := st.spill } := by
        unfold setattrs
        rw [setattrsLoop_inline_case cfg st.spill k v st.inline
          (by omega) hfull]
        cases hsp : st.spill <;> simp
      rw [hstate]
      exact getattrs_lookup_inline _ _ st.spill k v

/-! ## C5: monotonicity of the stored replay-guard position

The guard xattr of an object is written by `_set_replay_guard`
(XStore.cc:2413-2453) and `_close_replay_guard` (XStore.cc:2470-2496);
both return without writing when the backend can checkpoint (lines
2418-2419, 2472-2473).  Every guard-writing call site first consults
`_check_replay_guard` on the same position and proceeds only when the
result is ≥ 0 (e.g. `_clone` XStore.cc:3441/3510,
`_collection_move_rename` XStore.cc:5251-5257/5274/5286 and
5310-5316/5334/5369, `_split_collection` XStore.cc:5549-5559/5578-5579,
collection create/destroy XStore.cc:2784-2816 with 5177/5201).  When not
replaying the check returns 1 unconditionally, so monotonicity rests
on the engine's position discipline: live positions are assigned by the
monotone submit sequence after every replayed position (spec §3
"Sequence number", §4.1-4.2), which enters the theorem as hypotheses on
the event list. -/

/-- One guard write attempt: the position and `in_progress` flag passed
to `_set_replay_guard`/`_close_replay_guard`, and whether the engine was
replaying at that moment. -/
structure GEvent where
  pos        : SPos
  inProgress : Bool
  replaying  : Bool
deriving DecidableEq, Repr

/-- Whether this attempt actually writes the guard xattr: never when the
backend can checkpoint (XStore.cc:2418-2419, 2472-2473), otherwise
exactly when the call site's `_check_replay_guard` gate passed
(result ≥ 0). -/
def guardWrites (canCheckpoint : Bool) (g : Option Guard) (e : GEvent) :
    Bool :=
  !canCheckpoint &&
    decide (checkReplayGuard e.replaying canCheckpoint g e.pos ≥ 0)

/-- The guard state after one write attempt (XStore.cc:2438-2441 and
2480-2484 store `(spos, in_progress)`). -/
def guardStep (canCheckpoint : Bool) (g : Option Guard) (e : GEvent) :
    Option Guard :=
  if guardWrites canCheckpoint g e then some ⟨e.pos, e.inProgress⟩ else g

/-- The stored position does not decrease at this step: whenever a write
happens, the position written is at least the currently stored one. -/
def stepMonotone (canCheckpoint : Bool) (g : Option Guard) (e : GEvent) :
    Bool :=
  !(guardWrites canCheckpoint g e) ||
    (match g with
     | none => true
     | some gg => decide (gg.pos ≤ e.pos))

/-- Every write along the event list stores a position at least as large
as the previously stored one. -/
def monotoneRun (canCheckpoint : Bool) : Option Guard → List GEvent → Bool
  | _, [] => true
  | g, e :: rest =>
    stepMonotone canCheckpoint g e &&
      monotoneRun canCheckpoint (guardStep canCheckpoint g e) rest

/-- The guard state after a list of write attempts. -/
def guardRun (canCheckpoint : Bool) (g : Option Guard)
    (events : List GEvent) : Option Guard :=
  events.foldl (guardStep canCheckpoint) g

theorem monotoneRun_append (canCheckpoint : Bool) (g : Option Guard)
    (xs ys : List GEvent) :
    monotoneRun canCheckpoint g (xs ++ ys) =
      (monotoneRun canCheckpoint g xs &&
       monotoneRun canCheckpoint (guardRun canCheckpoint g xs) ys) := by
  induction xs generalizing g with
  | nil => simp [monotoneRun, guardRun]
  | cons e t ih =>
    show (stepMonotone canCheckpoint g e &&
        monotoneRun canCheckpoint (guardStep canCheckpoint g e) (t ++ ys)) =
      ((stepMonotone canCheckpoint g e &&
        monotoneRun canCheckpoint (guardStep canCheckpoint g e) t) &&
       monotoneRun canCheckpoint
         (guardRun canCheckpoint (guardStep canCheckpoint g e) t) ys)
    rw [ih, Bool.and_assoc]

/-- After any run the stored guard is either the initial one or carries
the position of one of the events. -/
theorem guardRun_cases (canCheckpoint : Bool) (g : Option Guard)
    (events : List GEvent) :
    guardRun canCheckpoint g events = g ∨
      ∃ e ∈ events, guardRun canCheckpoint g events =
        some ⟨e.pos, e.inProgress⟩ := by
  induction events generalizing g with
  | nil => exact Or.inl rfl
  | cons e t ih =>
    rw [guardRun, List.foldl_cons]
    rcases ih (guardStep canCheckpoint g e) with h | ⟨e', he', h⟩
    · rw [guardRun] at h
      rw [h]
      unfold guardStep
      by_cases hw : guardWrites canCheckpoint g e = true
      · exact Or.inr ⟨e, List.mem_cons_self e t, by rw [if_pos hw]⟩
      · rw [if_neg hw]
        exact Or.inl rfl
    · exact Or.inr ⟨e', List.mem_cons_of_mem e he', h⟩

/-- During replay with a non-checkpointable backend, a passed check
bounds the stored position by the current one (the content of
XStore.cc:2556-2573). -/
theorem check_ge_zero_bounds (g : Option Guard) (p : SPos)
    (hcp : checkReplayGuard true false g p ≥ 0) :
    ∀ gg : Guard, g = some gg → gg.pos ≤ p := by
  rintro ⟨q, ip⟩ rfl
  rcases SPos.trichotomy q p with h | h | h
  · exact SPos.le_of_lt h
  · exact Or.inr h
  · exfalso
    have hval : checkReplayGuard true false (some ⟨q, ip⟩) p = -1 := by
      unfold checkReplayGuard
      rw [if_neg (by decide)]
      dsimp only
      rw [if_pos h]
    rw [hval] at hcp
    omega

/-- A replay-phase event is monotone at any state: the write is gated by
the check. -/
theorem stepMonotone_replay (canCheckpoint : Bool) (g : Option Guard)
    (e : GEvent) (hr : e.replaying = true) :
    stepMonotone canCheckpoint g e = true := by
  unfold stepMonotone
  by_cases hw : guardWrites canCheckpoint g e = true
  · rw [hw]
    rcases g with _ | gg
    · rfl
    · unfold guardWrites at hw
      simp only [Bool.and_eq_true, Bool.not_eq_true', decide_eq_true_eq] at hw
      have := check_ge_zero_bounds (some gg) e.pos (by rw [← hr, ← hw.1]; exact hw.2)
        gg rfl
      simp [this]
  · simp only [Bool.not_eq_true] at hw
    rw [hw]
    rfl

/-- The replay phase of a run is monotone from any starting state. -/
theorem monotoneRun_replay_phase (canCheckpoint : Bool) (g : Option Guard)
    (events : List GEvent) (hr : ∀ e ∈ events, e.replaying = true) :
    monotoneRun canCheckpoint g events = true := by
  induction events generalizing g with
  | nil => rfl
  | cons e t ih =>
    rw [monotoneRun, stepMonotone_replay canCheckpoint g e
      (hr e (List.mem_cons_self e t)), Bool.true_and]
    exact ih _ (fun e' he' => hr e' (List.mem_cons_of_mem e he'))

/-- The live phase is monotone provided the stored position bounds the
upcoming positions and the positions are themselves nondecreasing. -/
theorem monotoneRun_live_phase (canCheckpoint : Bool) (g : Option Guard)
    (events : List GEvent)
    (hg : ∀ gg : Guard, g = some gg → ∀ e ∈ events, gg.pos ≤ e.pos)
    (hord : List.Pairwise (fun a b : GEvent => a.pos ≤ b.pos) events) :
    monotoneRun canCheckpoint g events = true := by
  induction events generalizing g with
  | nil => rfl
  | cons e t ih =>
    rw [monotoneRun]
    have hstep : stepMonotone canCheckpoint g e = true := by
      unfold stepMonotone
      rcases g with _ | gg
      · simp
      · have := hg gg rfl e (List.mem_cons_self e t)
        simp [this]
    rw [hstep, Bool.true_and]
    apply ih
    · intro gg hgg e' he'
      unfold guardStep at hgg
      by_cases hw : guardWrites canCheckpoint g e = true
      · rw [if_pos hw] at hgg
        have : gg.pos = e.pos := by
          cases hgg.symm; rfl
        rw [this]
        exact (List.pairwise_cons.mp hord).1 e' he'
      · rw [if_neg hw] at hgg
        exact hg gg hgg e' (List.mem_cons_of_mem e he')
    · exact (List.pairwise_cons.mp hord).2

/-- C5: the position stored in an object's replay guard never
decreases.  Model: a run of guard-write attempts consists of a replay
phase (journal replay at mount, events with `replaying = true`, each
write gated by `_check_replay_guard ≥ 0` at its call site) followed by a
live phase (events with `replaying = false`) whose positions are
nondecreasing and dominate the initial guard and every replayed
position — which is how the engine assigns positions (monotone submit
sequence, per-sequencer FIFO apply).  Every guard write (set or close)
then stores a position ≥ the position previously stored. -/
theorem replay_guard_monotone (canCheckpoint : Bool) (g₀ : Option Guard)
    (replayEvents liveEvents : List GEvent)
    (hr : ∀ e ∈ replayEvents, e.replaying = true)
    (hinit : ∀ gg : Guard, g₀ = some gg → ∀ e ∈ liveEvents, gg.pos ≤ e.pos)
    (hrl : ∀ e ∈ replayEvents, ∀ e' ∈ liveEvents, e.pos ≤ e'.pos)
    (hll : List.Pairwise (fun a b : GEvent => a.pos ≤ b.pos) liveEvents) :
    monotoneRun canCheckpoint g₀ (replayEvents ++ liveEvents) = true := by
  rw [monotoneRun_append]
  rw [monotoneRun_replay_phase canCheckpoint g₀ replayEvents hr,
    Bool.true_and]
  apply monotoneRun_live_phase
  · intro gg hgg e' he'
    rcases guardRun_cases canCheckpoint g₀ replayEvents with h | ⟨e, he, h⟩
    · rw [h] at hgg
      exact hinit gg hgg e' he'
    · rw [h] at hgg
      have : gg.pos = e.pos := by cases hgg.symm; rfl
      rw [this]
      exact hrl e he e' he'
  · exact hll

/-- Closed witness for C5: a guard left at position (5,0,0) from the
previous run; replay skips an older entry at (4,0,0), conditionally
re-applies (5,0,0) (in-progress guard), applies a newer entry at
(6,0,0); afterwards live ops write at (8,0,0) and (9,0,0).  Every guard
write along the way is nondecreasing. -/
theorem replay_guard_monotone_witness :
    monotoneRun false (some ⟨⟨5, 0, 0⟩, true⟩)
      ([⟨⟨4, 0, 0⟩, false, true⟩, ⟨⟨5, 0, 0⟩, false, true⟩,
        ⟨⟨6, 0, 0⟩, false, true⟩] ++
       [⟨⟨8, 0, 0⟩, true, false⟩, ⟨⟨9, 0, 0⟩, false, false⟩]) = true :=
  replay_guard_monotone false (some ⟨⟨5, 0, 0⟩, true⟩) _ _
    (by decide) (by decide) (by decide) (by decide)

/-! ## C2 and C4: the op pipeline of a single sequencer

An executable interleaving model of the submission/journal/apply/ack
pipeline for one sequencer.  Ops are numbered by submission order
(`submit_manager.op_submit_start`, XStore.cc:2222); the state carries
the queues the source manipulates:

* `q`     — the sequencer's apply queue (`osr->queue`/`peek_queue`/
  `dequeue`, appended by `queue_op` XStore.cc:1679-1696);
* `inq`   — the sequencer's in-queue (`queue_inq` XStore.cc:2228,
  `dequeue_inq` XStore.cc:1805);
* `jpending` — journal entries submitted but with the durability
  callback not yet delivered; the journal delivers completions in
  submission order (spec §4.3), so only the head can complete;
* `jwaQueue` — `jwa_queue` (XStore.cc:2256-2260, 1788-1795);
* `ackPending` — batched ack entries submitted by the jwa thread
  (XStore.cc:1862-1883) whose durability callback is pending;
* `readableQ`/`ondiskQ` — the FIFO finisher queues for on-readable and
  on-disk callbacks of this sequencer (`apply_finishers[osr->id % N]`
  XStore.cc:1820-1825, `ondisk_finishers[osr->id % N]`
  XStore.cc:2285-2291; a fixed finisher per sequencer, each a FIFO
  thread, per spec §5);
* `readableFired`/`ondiskFired` — callbacks already run, in order;
* `aborted` — an engine `assert` failed (the process would die).

The `OpSequencer`/`Finisher` classes live in a header that is not part
of the given source; their queue semantics (plain FIFOs) are modelled
from the spec (§4.1, §5). -/

/-- Op states (`Op::STATE_*`), as used in XStore.cc. -/
inductive OpState where
  | init | write | journal | commit | ack | done
deriving DecidableEq, Repr

/-- The pipeline state of one sequencer. -/
structure PState where
  nextId        : Nat
  wal           : List Bool
  st            : List OpState
  q             : List Nat
  inq           : List Nat
  jpending      : List Nat
  jwaQueue      : List Nat
  ackPending    : List (List Nat)
  applying      : Option Nat
  readableQ     : List Nat
  ondiskQ       : List Nat
  readableFired : List Nat
  ondiskFired   : List Nat
  aborted       : Bool
deriving DecidableEq, Repr

def PState.getWal (s : PState) (i : Nat) : Bool := s.wal.getD i false

def PState.getSt (s : PState) (i : Nat) : OpState := s.st.getD i .done

/-- The empty pipeline. -/
def pinit : PState :=
  ⟨0, [], [], [], [], [], [], [], none, [], [], [], [], false⟩

/-- `queue_transactions` on the journal-writeable path
(XStore.cc:2213-2246): build the op with its WAL flag, reserve the
throttle, submit the journal entry, `queue_inq`, `queue_journal`,
`queue_op`. -/
def psubmit (w : Bool) (s : PState) : PState :=
  let i := s.nextId
  { s with
    nextId := i + 1,
    wal := s.wal ++ [w],
    st := s.st ++ [OpState.init],
    inq := s.inq ++ [i],
    jpending := s.jpending ++ [i],
    q := s.q ++ [i] }

/-- Delivery of the journal durability callback for the oldest pending
entry (the journal completes in submission order, spec §4.3), running
`_journaled_written` (XStore.cc:2252-2265): a WAL op, or an op whose
apply pass already finished (`STATE_WRITE`), moves to `STATE_COMMIT`
and joins `jwa_queue`; otherwise the op moves to `STATE_JOURNAL`. -/
def pjournalComplete (s : PState) : Option PState :=
  match s.jpending with
  | [] => none
  | h :: rest =>
    if s.getWal h || s.getSt h == OpState.write then
      some { s with
               jpending := rest
               st := s.st.set h OpState.commit
               jwaQueue := s.jwaQueue ++ [h] }
    else
      some { s with jpending := rest, st := s.st.set h OpState.journal }

/-- A worker picks up the sequencer and enters `_do_op`
(XStore.cc:1750-1782): takes the apply lock, peeks the head op, asserts
`state == STATE_ACK || state == STATE_INIT` (line 1765), and runs the
transactions when `state == STATE_ACK || !wal`. -/
def pworkerStart (s : PState) : Option PState :=
  match s.q with
  | [] => none
  | h :: _ =>
    if s.applying = none then
      if s.getSt h = OpState.ack ∨ s.getSt h = OpState.init then
        some { s with applying := some h }
      else
        some { s with aborted := true }   -- assert at XStore.cc:1765
    else none

/-- `_finish_op` (XStore.cc:1784-1827): for a non-ACK op, advance
INIT→WRITE or JOURNAL→COMMIT (queueing to `jwa_queue`) and pop the
apply queue without firing callbacks; for an ACK op, mark DONE, pop the
apply queue, pop the in-queue asserting it yields this very op (line
1805), and queue the on-readable callback on the apply finisher. -/
def pworkerFinish (s : PState) : Option PState :=
  match s.applying with
  | none => none
  | some h =>
    if s.getSt h ≠ OpState.ack then
      if s.getSt h = OpState.init then
        some { s with
                 st := s.st.set h OpState.write
                 q := s.q.tail
                 applying := none }
      else if s.getSt h = OpState.journal then
        some { s with
                 st := s.st.set h OpState.commit
                 jwaQueue := s.jwaQueue ++ [h]
                 q := s.q.tail
                 applying := none }
      else
        some { s with q := s.q.tail, applying := none }
    else
      if s.inq.head? = some h then
        some { s with
                 st := s.st.set h OpState.done
                 q := s.q.tail
                 inq := s.inq.tail
                 readableQ := s.readableQ ++ [h]
                 applying := none }
      else
        some { s with aborted := true }   -- assert at XStore.cc:1805

/-- The jwa thread takes the whole `jwa_queue` as one batch and submits
a single ack entry to the journal (XStore.cc:1862-1883). -/
def pjwaBatch (s : PState) : Option PState :=
  if s.jwaQueue = [] then none
  else some { s with
                jwaQueue := []
                ackPending := s.ackPending ++ [s.jwaQueue] }

/-- Delivery of the durability callback of the oldest pending ack
entry, running `_journaled_ack_written` (XStore.cc:2267-2292): each op
of the batch, in batch order, moves to `STATE_ACK`, is re-queued on the
sequencer by `queue_op`, and has its on-disk callback queued on the
ondisk finisher. -/
def packComplete (s : PState) : Option PState :=
  match s.ackPending with
  | [] => none
  | batch :: rest =>
    some (batch.foldl
      (fun s' h =>
        { s' with
            st := s'.st.set h OpState.ack
            q := s'.q ++ [h]
            ondiskQ := s'.ondiskQ ++ [h] })
      { s with ackPending := rest })

/-- The apply finisher runs the head on-readable callback (FIFO finisher
thread, spec §5). -/
def pfireReadable (s : PState) : Option PState :=
  match s.readableQ with
  | [] => none
  | h :: rest =>
    some { s with readableQ := rest, readableFired := s.readableFired ++ [h] }

/-- The ondisk finisher runs the head on-disk callback. -/
def pfireOndisk (s : PState) : Option PState :=
  match s.ondiskQ with
  | [] => none
  | h :: rest =>
    some { s with ondiskQ := rest, ondiskFired := s.ondiskFired ++ [h] }

/-- The pipeline events. -/
inductive PEvent where
  | submit (wal : Bool)
  | journalComplete
  | workerStart
  | workerFinish
  | jwaBatch
  | ackComplete
  | fireReadable
  | fireOndisk
deriving DecidableEq, Repr

/-- One step; `none` when the event is not enabled.  After an engine
abort the process is dead and nothing further runs. -/
def pstep (s : PState) : PEvent → Option PState
  | .submit w => if s.aborted then none else some (psubmit w s)
  | .journalComplete => if s.aborted then none else pjournalComplete s
  | .workerStart => if s.aborted then none else pworkerStart s
  | .workerFinish => if s.aborted then none else pworkerFinish s
  | .jwaBatch => if s.aborted then none else pjwaBatch s
  | .ackComplete => if s.aborted then none else packComplete s
  | .fireReadable => if s.aborted then none else pfireReadable s
  | .fireOndisk => if s.aborted then none else pfireOndisk s

/-- Run a schedule of events. -/
def prun (s : PState) : List PEvent → Option PState
  | [] => some s
  | e :: es => (pstep s e).bind (fun s' => prun s' es)

/-- The condition under which every wait of `XStore::flush`
(XStore.cc:4040-4066) and `XStore::sync_and_flush` (XStore.cc:4071-4080)
is satisfied, so that a call entering at this state returns immediately:
`journal->flush()` has no pending journal entry to wait for
(op entries and ack entries all completed), the ondisk and apply
finishers are empty (lines 4056-4062, 4029-4034), and `op_wq.drain()`
sees no queued or running sequencer work (line 4027). -/
def flushWouldReturn (s : PState) : Bool :=
  s.jpending.isEmpty && s.ackPending.isEmpty &&
  s.ondiskQ.isEmpty && s.readableQ.isEmpty &&
  s.q.isEmpty && s.applying == none

/-- The C2 schedule: op 0 (non-WAL, e.g. a `[write, setattrs,
omap_setkeys]` transaction) then op 1 (WAL) are submitted in that order
to the same sequencer.  A worker starts applying op 0; while it is
applying, the journal completes entry 0 (op 0 leaves INIT for JOURNAL)
and then entry 1 (op 1, WAL, enters `jwa_queue` first); the worker
finishes (op 0 enters `jwa_queue` second); the jwa thread batches
`[1, 0]`, the ack entry becomes durable, and `_journaled_ack_written`
queues the on-disk callbacks in batch order: op 1 before op 0. -/
def c2Schedule : List PEvent :=
  [.submit false, .submit true, .workerStart, .journalComplete,
   .journalComplete, .workerFinish, .jwaBatch, .ackComplete,
   .fireOndisk, .fireOndisk]

/-- C2: on a single sequencer with ops submitted in order 0 then 1,
the schedule above is a legal interleaving after which the on-disk
callbacks have fired in order [1, 0] — the later op's on-disk callback
fired first, violating per-sequencer on-disk ordering.  Continuing the
schedule, the engine's own FIFO assertion (`dequeue_inq() == o`,
XStore.cc:1805) fails and the process aborts. -/
theorem ondisk_callbacks_fire_out_of_order :
    (prun pinit c2Schedule).map
      (fun s => (s.ondiskFired, s.aborted)) = some ([1, 0], false) ∧
    (prun pinit (c2Schedule ++ [.workerStart, .workerFinish])).map
      (fun s => s.aborted) = some true := by
  constructor <;> rfl

/-- The C4 schedule: a single WAL op is submitted; a worker picks it up
(skipping the transactions, as it is WAL and not yet durable) and
finishes, popping it from the apply queue; the journal entry completes
and the op sits in `jwa_queue` waiting for the jwa thread. -/
def c4Schedule : List PEvent :=
  [.submit true, .workerStart, .workerFinish, .journalComplete]

/-- C4: after the schedule above, every wait performed by `flush()` and
by `sync_and_flush()` is already satisfied — no pending journal entry,
empty finishers, drained op queue — yet the op enqueued before the call
(op 0, the only one: `nextId = 1`) has fired neither its on-readable nor
its on-disk callback; it sits in `jwa_queue`, which no wait in
`flush`/`sync_and_flush` covers.  A `flush()` or `sync_and_flush()`
entered at this state returns immediately, before the callbacks fire. -/
theorem flush_returns_before_readable :
    (prun pinit c4Schedule).map
      (fun s => (flushWouldReturn s, s.readableFired, s.ondiskFired,
                 s.jwaQueue, s.nextId)) =
      some (true, [], [], [0], 1) := by
  rfl

end XStore
